import Mathlib

/-!
Verification development for the GeodiversityTools scripts.

Values carried by attribute columns are modelled as rationals (`ℚ`), and a
nullable column value as `Option ℚ` (`none` is an SQL NULL).  Quantities that
the scripts feed through `math.sqrt` / `math.log` are modelled over `ℝ`.
Attribute tables and field lists are modelled as Lean lists.
-/

/- ------------------------------------------------------------------ -/
/- Min–max standardization, hand-rolled variant (L_Tl.py lines 129-151). -/
/- ------------------------------------------------------------------ -/

/-- Maximum of a list of rationals, `none` on the empty list (Python `max`
is only ever called on non-empty lists in the scripts). -/
def listMax : List ℚ → Option ℚ
  | [] => none
  | a :: l =>
    match listMax l with
    | none => some a
    | some b => some (max a b)

/-- Minimum of a list of rationals, `none` on the empty list. -/
def listMin : List ℚ → Option ℚ
  | [] => none
  | a :: l =>
    match listMin l with
    | none => some a
    | some b => some (min a b)

/-- Non-null values collected by the SearchCursor at L_Tl.py:129
(`[row[0] for row in ... if row[0] is not None]`). -/
def observedValues (vals : List (Option ℚ)) : List ℚ :=
  vals.filterMap id

/-- Scaling minimum of L_Tl.py:131-137: 0 when nothing was observed,
otherwise fixed at 0 under the zero-fill mode and `min(lines_values)`
under the preserve-null mode. -/
def minLines (useZero : Bool) (vals : List (Option ℚ)) : ℚ :=
  match listMin (observedValues vals) with
  | none => 0
  | some m => if useZero then 0 else m

/-- Scaling maximum of L_Tl.py:131-137: 0 when nothing was observed,
otherwise `max(lines_values)`. -/
def maxLines (vals : List (Option ℚ)) : ℚ :=
  match listMax (observedValues vals) with
  | none => 0
  | some m => m

/-- One row of the UpdateCursor loop at L_Tl.py:140-151: the pair is the
updated raw column and the standardized column. -/
def standardizeRowLTl (useZero : Bool) (mn mx : ℚ) (val : Option ℚ) :
    Option ℚ × Option ℚ :=
  match val with
  | none =>
    (if useZero then some 0 else none, if useZero then some 0 else none)
  | some v =>
    (some v,
      if mx = mn then some 0
      else if useZero then some (v / mx) else some ((v - mn) / (mx - mn)))

/-- Min–max standardization pass of L_Tl.py step 5 over the whole column. -/
def standardizeLTl (useZero : Bool) (vals : List (Option ℚ)) :
    List (Option ℚ × Option ℚ) :=
  vals.map (standardizeRowLTl useZero (minLines useZero vals) (maxLines vals))

/- ------------------------------------------------------------------ -/
/- Min–max standardization of P_Nc.py steps 5.1-5.4 (lines 181-243).  -/
/- ------------------------------------------------------------------ -/

/-- Step 5.1 of P_Nc.py: under the zero-fill mode NULL frequencies are
overwritten with 0 before the scaling range is computed. -/
def pncFill (useZero : Bool) (vals : List (Option ℚ)) : List (Option ℚ) :=
  if useZero then vals.map (fun v => some (v.getD 0)) else vals

/-- Step 5.2 of P_Nc.py: scaling range over the non-null (post-fill) values;
(0, 0) when the table holds no values, minimum pinned to 0 in zero-fill mode. -/
def pncRange (useZero : Bool) (vals : List (Option ℚ)) : ℚ × ℚ :=
  let freqs := observedValues (pncFill useZero vals)
  match listMin freqs, listMax freqs with
  | some mn, some mx => (if useZero then 0 else mn, mx)
  | _, _ => (0, 0)

/-- One row of the UpdateCursor at P_Nc.py step 5.4. -/
def pncRow (useZero : Bool) (mn mx : ℚ) (v : Option ℚ) : Option ℚ :=
  if mx = mn then some 0
  else
    match v with
    | none => if useZero then some (0 / mx) else none
    | some v => if useZero then some (v / mx) else some ((v - mn) / (mx - mn))

/-- Standardization pass of P_Nc.py steps 5.1-5.4 over the completed
frequency column. -/
def standardizePNc (useZero : Bool) (vals : List (Option ℚ)) : List (Option ℚ) :=
  let filled := pncFill useZero vals
  let r := pncRange useZero vals
  filled.map (pncRow useZero r.1 r.2)

/-- Standardizer contract exactly as the spec words it (section 4.3), kept
separate from the source embeddings so the two can be compared: zero-fill
treats NULL as raw 0 with range (0, max observed); preserve-null keeps NULL
and uses the observed min/max; both apply (raw - min)/(max - min). -/
def specStandardize (useZero : Bool) (vals : List (Option ℚ)) :
    List (Option ℚ) :=
  let obs := observedValues vals
  let mx := (listMax obs).getD 0
  let mn := if useZero then 0 else (listMin obs).getD 0
  vals.map (fun v =>
    match v with
    | none => if useZero then some ((0 - mn) / (mx - mn)) else none
    | some v => some ((v - mn) / (mx - mn)))

/-- Modelled from the spec: the external geometry engine's built-in MIN-MAX
normalization utility (`arcpy.management.StandardizeField`), which is not part
of this repository.  A_SHDI.py step 9 (line 225) calls it unconditionally; per
the spec (section 4.3) the utility "does not support the zero-variance guard",
so on a degenerate column (max = min) the rescaling
(v - min)/(max - min) is undefined and no 0 is produced. -/
def builtinStandardizeField (vals : List ℚ) : List (Option ℚ) :=
  match listMin vals, listMax vals with
  | some mn, some mx =>
    vals.map (fun v => if mx = mn then none else some ((v - mn) / (mx - mn)))
  | _, _ => []

/- ------------------------------------------------------------------ -/
/- Zonal aggregation row counts (P_Nc.py steps 3-4.1, A_SHDI.py step 2). -/
/- ------------------------------------------------------------------ -/

/-- Frequency table of P_Nc.py step 4 (`arcpy.analysis.Frequency` on the
NEAR_FID column): one row per distinct zone id occurring among the
observations, carrying the number of dissolved category groups that were
assigned to that zone. -/
def frequencyTable (obs : List ℤ) : List (ℤ × ℚ) :=
  obs.dedup.map (fun z => (z, (obs.count z : ℚ)))

/-- Completion step 4.1 of P_Nc.py (lines 145-171): zone ids present in the
grid but absent from the frequency table are inserted with FREQUENCY 0
(zero-fill mode) or NULL (preserve-null mode). -/
def completeNcTable (useZero : Bool) (zones : List ℤ) (obs : List ℤ) :
    List (ℤ × Option ℚ) :=
  let table := (frequencyTable obs).map (fun r => (r.1, some r.2))
  let missing := zones.filter (fun z => ¬ z ∈ obs)
  table ++ missing.map (fun z => (z, if useZero then some (0 : ℚ) else none))

/-- Empty-intersection gate of A_SHDI.py step 2 (lines 160-164): the run is
aborted outright when the landscape/grid intersection produced no features. -/
def ashdiIntersectGate (obs : List (ℤ × ℚ)) : Except String (List (ℤ × ℚ)) :=
  if obs.length = 0 then Except.error "Intersect output is empty."
  else Except.ok obs

/-- Per-zone aggregate rows that A_SHDI derives from the intersection
(steps 2-8): after the empty-output gate, one row per zone id that actually
occurs among the intersected features (zones without observations get no
row; they only become NULL at the later attribute join). -/
def ashdiAggregate (obs : List (ℤ × ℚ)) : Except String (List (ℤ × ℚ)) :=
  match ashdiIntersectGate obs with
  | Except.error e => Except.error e
  | Except.ok o =>
    Except.ok ((o.map Prod.fst).dedup.map
      (fun z => (z, ((o.filter (fun r => r.1 = z)).map Prod.snd).sum)))

/- ------------------------------------------------------------------ -/
/- Circular standard deviation (R_SDc.py step 9, R_SDc_mem.py step 7). -/
/- ------------------------------------------------------------------ -/

/-- Mean resultant length expression of R_SDc.py:170
(`(!R! / !COUNT!) if !COUNT! not in (None, 0) else 0`). -/
def rMean (r : ℚ) (count : Option ℚ) : ℚ :=
  match count with
  | none => 0
  | some c => if c = 0 then 0 else r / c

/-- Radicand handed to `math.sqrt` by R_SDc.py:172:
`max(0, 2*(1-!R_Mn!))` — the guarded form. -/
def sdcRadicand (rMn : ℚ) : ℚ :=
  max 0 (2 * (1 - rMn))

/-- Radicand handed to `math.sqrt` by R_SDc_mem.py:156:
`2*(1-!R_Mn!)` — the same formula without the `max(0, ...)` guard. -/
def sdcRadicandMem (rMn : ℚ) : ℚ :=
  2 * (1 - rMn)

/-- Circular standard deviation formula of R_SDc.py:172 over the reals:
`(180/math.pi)*math.sqrt(max(0, 2*(1-R_Mn)))`. -/
noncomputable def sdc (rMn : ℝ) : ℝ :=
  (180 / Real.pi) * Real.sqrt (max 0 (2 * (1 - rMn)))

/- ------------------------------------------------------------------ -/
/- Local extrema detection along a profile (R_M.py detect_extrema,    -/
/- lines 216-231).                                                    -/
/- ------------------------------------------------------------------ -/

/-- Number of non-null sampled values
(`valid_indices = [i for i, v in enumerate(values) if v is not None]`). -/
def validCount (values : List (Option ℚ)) : ℕ :=
  (values.filterMap id).length

/-- Strict local-extremum test of R_M.py:224-225: strictly greater than both
neighbours or strictly less than both neighbours. -/
def strictExtremum (a v b : ℚ) : Bool :=
  (decide (a < v) && decide (b < v)) || (decide (v < a) && decide (v < b))

/-- One iteration of the interior loop of detect_extrema (R_M.py:221-226):
at an index of `range(1, len(values) - 1)` whose value and both neighbours
are non-null and which passes the strict test, the (index, value) pair is
emitted. -/
def interiorCheck (values : List (Option ℚ)) (i : ℕ) : Option (ℕ × ℚ) :=
  if 1 ≤ i ∧ i + 1 < values.length then
    match values.get? (i - 1), values.get? i, values.get? (i + 1) with
    | some (some a), some (some v), some (some b) =>
      if strictExtremum a v b then some (i, v) else none
    | _, _, _ => none
  else none

/-- Interior loop of detect_extrema (R_M.py:221-226) over all indices. -/
def interiorExtrema (values : List (Option ℚ)) : List (ℕ × ℚ) :=
  (List.range values.length).filterMap (interiorCheck values)

/-- detect_extrema of R_M.py:216-231: with fewer than 3 non-null samples the
empty list is returned at once; otherwise the interior extrema are computed,
a non-null first sample is prepended and a non-null last sample appended. -/
def detectExtrema (values : List (Option ℚ)) : List (ℕ × ℚ) :=
  if validCount values < 3 then []
  else
    let ext := interiorExtrema values
    let ext :=
      match values.head? with
      | some (some v) => (0, v) :: ext
      | _ => ext
    match values.getLast? with
    | some (some v) => ext ++ [(values.length - 1, v)]
    | _ => ext

/- ------------------------------------------------------------------ -/
/- Shannon diversity (A_SHDI.py step 7) and unit entropy (P_Hu.py     -/
/- steps 4-6).                                                        -/
/- ------------------------------------------------------------------ -/

/-- Zone total area of A_SHDI.py step 6: sum of the per-category
Sum_Shape_Area values, a falsy (NULL or 0) area counting as 0
(`area = area if area else 0`). -/
noncomputable def shdiDenom (areas : List (Option ℝ)) : ℝ :=
  (areas.map (fun a => a.getD 0)).sum

/-- Proportion of A_SHDI.py:207: `area / denom if denom > 0 else 0`. -/
noncomputable def shdiP (denom a : ℝ) : ℝ :=
  if denom > 0 then a / denom else 0

/-- Summand of A_SHDI.py:208-213 and P_Hu.py step 5: `-(p * ln p)` when the
proportion is strictly positive, 0 otherwise (the logarithm is never taken
at 0). -/
noncomputable def entropyTerm (p : ℝ) : ℝ :=
  if p > 0 then -(p * Real.log p) else 0

/-- Per-zone Shannon diversity of A_SHDI.py steps 6-8: the SumElement values
of the zone's category rows, summed. -/
noncomputable def shdiZone (areas : List (Option ℝ)) : ℝ :=
  (areas.map (fun a => entropyTerm (shdiP (shdiDenom areas) (a.getD 0)))).sum

/-- Proportion of P_Hu.py step 4: `PNT_COUNT / Ne if Ne > 0 else 0`. -/
noncomputable def huQ (ne cnt : ℝ) : ℝ :=
  if ne > 0 then cnt / ne else 0

/-- Per-zone unit entropy of P_Hu.py steps 4-6: H_i summed over the zone's
category rows. -/
noncomputable def huZone (ne : ℝ) (counts : List ℝ) : ℝ :=
  (counts.map (fun c => entropyTerm (huQ ne c))).sum

/-- Entropy formula exactly as the spec words it (section 4.4): the negated
sum of p * ln p restricted to the proportions with p > 0. -/
noncomputable def specEntropy (ps : List ℝ) : ℝ :=
  -(((ps.filter (fun p => decide (p > 0))).map (fun p => p * Real.log p)).sum)

/- ------------------------------------------------------------------ -/
/- Relief summation of R_M.py step 10 (lines 519-558).                -/
/- ------------------------------------------------------------------ -/

/-- Assigned extremum point of R_M.py step 10: sampled elevation, profile
direction (`nsDir = true` for "N-S"), and the point coordinates used as sort
keys.  Coordinates and elevations are rationals so that sorting stays
decidable; elevations are cast to ℝ where `** 0.5` is applied. -/
structure RelPoint where
  z : ℚ
  nsDir : Bool
  x : ℚ
  y : ℚ
deriving DecidableEq, Repr

/-- Stable insertion used to model Python's stable `sorted(..., key=...)`:
the new element goes in front of the first strictly larger key. -/
def insertByKey (key : RelPoint → ℚ) (p : RelPoint) :
    List RelPoint → List RelPoint
  | [] => [p]
  | q :: l => if key p < key q then p :: q :: l else q :: insertByKey key p l

/-- Stable sort by a rational key, modelling `sorted(..., key=...)` at
R_M.py:548 and R_M.py:553. -/
def sortByKey (key : RelPoint → ℚ) : List RelPoint → List RelPoint
  | [] => []
  | p :: l => insertByKey key p (sortByKey key l)

/-- Directional relief sum of R_M.py:550/555: the chain
`sum(abs(z[i] - z[i-1]) ** 0.5 for i in range(1, len(z)))`, which is 0 for
fewer than two elevations exactly as the `if len(...) > 1 else 0` guard
makes it. -/
noncomputable def muDir : List ℚ → ℝ
  | a :: b :: l => Real.sqrt |(b : ℝ) - (a : ℝ)| + muDir (b :: l)
  | _ => 0

/-- Consecutive-difference formulation of the same sum, written the way the
spec words step 7 of section 4.6 (sum over pairs of consecutive points). -/
noncomputable def specMuDir (z : List ℚ) : ℝ :=
  ((z.zip z.tail).map (fun ab => Real.sqrt |(ab.2 : ℝ) - (ab.1 : ℝ)|)).sum

/-- Per-zone relief row of R_M.py step 10: zones with no assigned points get
the row (0, 0, 0); otherwise the N-S points are sorted by Y and the W-E
points by X, each chain summed, and the zone value is the average.  The
returned triple is (MU_NS, MU_WE, MU). -/
noncomputable def zoneMu (pts : List RelPoint) : ℝ × ℝ × ℝ :=
  if pts = [] then (0, 0, 0)
  else
    let ns := sortByKey (fun p => p.y) (pts.filter (fun p => p.nsDir = true))
    let we := sortByKey (fun p => p.x) (pts.filter (fun p => p.nsDir = false))
    let muNS := muDir (ns.map (fun p => p.z))
    let muWE := muDir (we.map (fun p => p.z))
    (muNS, muWE, (muNS + muWE) / 2)

/- ------------------------------------------------------------------ -/
/- Attribute-table schema effects of the tool pipelines.              -/
/- A grid (or landscape) attribute table is modelled by its list of   -/
/- field names; arcpy resolves field names case-insensitively, hence  -/
/- the `upperName` comparisons mirroring the scripts' own        -/
/- `f.name.upper()` checks.                                           -/
/- ------------------------------------------------------------------ -/

/-- ASCII uppercase of one character, modelling Python's `str.upper()` on
the ASCII field names the scripts use. -/
def upperChar (c : Char) : Char :=
  if 'a' ≤ c ∧ c ≤ 'z' then Char.ofNat (c.toNat - 32) else c

/-- Uppercase of a field name (`f.name.upper()` in the scripts). -/
def upperName (s : String) : String :=
  ⟨s.data.map upperChar⟩

/-- Field deletion (`arcpy.management.DeleteField`), name resolved
case-insensitively. -/
def deleteField (n : String) (fields : List String) : List String :=
  fields.filter (fun f => ¬ upperName f = upperName n)

/-- Field creation (`arcpy.management.AddField` / the fields produced by
Near and JoinField): a no-op when a field of that name is already present. -/
def addField (n : String) (fields : List String) : List String :=
  if upperName n ∈ fields.map upperName then fields else fields ++ [n]

/-- Field rename (`arcpy.management.AlterField`). -/
def renameField (old new : String) (fields : List String) : List String :=
  fields.map (fun f => if upperName f = upperName old then new else f)

/-- A_Nc.py run, reduced to its effect on the grid's field list: the
output-field existence check (lines 103-115) aborts with the grid untouched
(`false` flag); otherwise the transient StatZoneID is created (step 1), the
old join fields are dropped (step 5), the computed columns are joined
(step 6), renamed to the output names (step 7), and StatZoneID is removed in
the cleanup (step 8).  A_SHDI.py, P_Nc.py, L_Tl.py and R_M.py carry the
identical check before their first grid mutation. -/
def runANc (raw std : String) (g : List String) : List String × Bool :=
  if upperName raw ∈ g.map upperName ∨ upperName std ∈ g.map upperName then
    (g, false)
  else
    let g1 := addField "StatZoneID" (deleteField "StatZoneID" g)
    let g2 := deleteField "JOIN_COUNT_MIN_MAX" (deleteField "JOIN_COUNT" g1)
    let g3 := addField "Join_Count_MIN_MAX" (addField "Join_Count" g2)
    let g4 := renameField "Join_Count_MIN_MAX" std (renameField "Join_Count" raw g3)
    (deleteField "StatZoneID" g4, true)

/-- Runs a prefix of a step list: `failAt = some k` models an exception
thrown inside step `k` (steps `0..k-1` have completed), `none` a successful
run of every step. -/
def runSteps (steps : List (List String → List String)) (failAt : Option ℕ)
    (g : List String) : List String :=
  (steps.take (failAt.getD steps.length)).foldl (fun s f => f s) g

/-- Grid-field effects of the L_Tl.py pipeline in source order: conflict
check, StatZoneID creation (step 1), Intersect (2), Dissolve (3), raw-field
creation on the dissolved dataset (4), standardization cursor (5), removal
of old join fields from the grid (6), JoinField (7), NULL replacement in
values (8), renames (9), StatZoneID removal (10).  The script's `finally`
block only clears the workspace cache, so a failed run performs no further
grid-field mutation. -/
def ltlGridSteps (raw std : String) : List (List String → List String) :=
  [ fun g => g,
    fun g => addField "StatZoneID" (deleteField "StatZoneID" g),
    fun g => g,
    fun g => g,
    fun g => g,
    fun g => g,
    fun g => deleteField "LINES_LENGTH_MIN_MAX" (deleteField "LINES_LENGTH" g),
    fun g => addField "Lines_Length_MIN_MAX" (addField "Lines_Length" g),
    fun g => g,
    fun g => renameField "Lines_Length_MIN_MAX" std
      (renameField "Lines_Length" raw g),
    fun g => deleteField "StatZoneID" g ]

/-- Grid field list after an L_Tl.py run that fails inside step `failAt`
(or completes, for `none`). -/
def runLTlGrid (raw std : String) (failAt : Option ℕ) (g : List String) :
    List String :=
  runSteps (ltlGridSteps raw std) failAt g

/-- Outcome of an R_M.py run: final grid fields, number of cleanup warnings,
and whether the main body failed. -/
structure RMOutcome where
  grid : List String
  warnings : ℕ
  mainFailed : Bool
deriving DecidableEq, Repr

/-- Grid-field effects of the R_M.py main body in source order: conflict
check (lines 86-89), StatZoneID creation (step 1), the in-memory profile and
relief computations (steps 2-13, no grid-field effect), JoinField (step 14)
and the renames (step 15). -/
def rmGridSteps (raw std : String) : List (List String → List String) :=
  [ fun g => g,
    fun g => addField "StatZoneID" (deleteField "StatZoneID" g),
    fun g => g,
    fun g => g,
    fun g => g,
    fun g => addField "RM_MM" (addField "RM" g),
    fun g => renameField "RM_MM" std (renameField "RM" raw g) ]

/-- R_M.py run including its `finally` block (step 16, lines 674-708): on
every exit path the cleanup is attempted; when it succeeds the transient
StatZoneID field is removed, and when it raises, the `except` clause turns
the failure into a single warning (`AddWarning`) without changing whether
the run itself failed. -/
def rmRun (raw std : String) (failAt : Option ℕ) (cleanupOk : Bool)
    (g : List String) : RMOutcome :=
  let n := (rmGridSteps raw std).length
  let g1 := runSteps (rmGridSteps raw std) failAt g
  let failed := match failAt with
    | none => false
    | some k => decide (k < n)
  if cleanupOk then
    { grid := deleteField "StatZoneID" g1, warnings := 0, mainFailed := failed }
  else
    { grid := g1, warnings := 1, mainFailed := failed }

/-- Attribute schemas touched by P_Nc.py: the grid's and the landscape
point layer's field lists. -/
structure PNcState where
  grid : List String
  land : List String
deriving DecidableEq, Repr

/-- Field effects of the P_Nc.py pipeline in source order: conflict check,
StatZoneID creation (step 1), the Near analysis (step 2) which adds the
NEAR_FID and NEAR_DIST columns to the landscape layer, Dissolve (3),
Frequency with completion (4/4.1), standardization (5), removal of old join
fields (6), JoinField (7), renames (8), and the cleanup (step 9) which
removes StatZoneID from the grid and NEAR_FID/NEAR_DIST from the landscape
layer.  The `finally` block only clears the workspace cache. -/
def pncSteps (raw std : String) : List (PNcState → PNcState) :=
  [ fun s => s,
    fun s => { s with grid := addField "StatZoneID" (deleteField "StatZoneID" s.grid) },
    fun s => { s with land := addField "NEAR_DIST" (addField "NEAR_FID" s.land) },
    fun s => s,
    fun s => s,
    fun s => s,
    fun s => { s with grid := deleteField "FREQUENCY_MIN_MAX" (deleteField "FREQUENCY" s.grid) },
    fun s => { s with grid := addField "FREQUENCY_MIN_MAX" (addField "FREQUENCY" s.grid) },
    fun s => { s with grid := renameField "FREQUENCY_MIN_MAX" std (renameField "FREQUENCY" raw s.grid) },
    fun s => { grid := deleteField "StatZoneID" s.grid,
               land := deleteField "NEAR_DIST" (deleteField "NEAR_FID" s.land) } ]

/-- P_Nc.py run: `failAt = some k` models an exception inside step `k`,
`none` a successful run. -/
def runPNc (raw std : String) (failAt : Option ℕ) (s : PNcState) : PNcState :=
  ((pncSteps raw std).take (failAt.getD (pncSteps raw std).length)).foldl
    (fun s f => f s) s

/- ------------------------------------------------------------------ -/
/- Helper lemmas.                                                     -/
/- ------------------------------------------------------------------ -/

theorem listMax_eq_none_iff (l : List ℚ) : listMax l = none ↔ l = [] := by
  cases l with
  | nil => simp [listMax]
  | cons a l =>
    simp only [listMax]
    cases listMax l <;> simp

theorem listMax_mem {l : List ℚ} {m : ℚ} (h : listMax l = some m) : m ∈ l := by
  induction l generalizing m with
  | nil => simp [listMax] at h
  | cons a l ih =>
    simp only [listMax] at h
    cases hl : listMax l with
    | none =>
      rw [hl] at h
      simp at h
      simp [h]
    | some b =>
      rw [hl] at h
      simp at h
      rcases max_choice a b with hm | hm <;> rw [hm] at h
      · simp [h]
      · exact List.mem_cons_of_mem _ (h ▸ ih hl)

theorem le_listMax {l : List ℚ} {a m : ℚ} (ha : a ∈ l) (h : listMax l = some m) :
    a ≤ m := by
  induction l generalizing m with
  | nil => simp at ha
  | cons b l ih =>
    simp only [listMax] at h
    cases hl : listMax l with
    | none =>
      rw [hl] at h
      simp at h
      rcases List.mem_cons.mp ha with rfl | ha2
      · exact le_of_eq h
      · rw [listMax_eq_none_iff] at hl
        simp [hl] at ha2
    | some c =>
      rw [hl] at h
      simp at h
      rcases List.mem_cons.mp ha with rfl | ha2
      · exact h ▸ le_max_left _ _
      · exact le_trans (ih ha2 hl) (h ▸ le_max_right _ _)

theorem listMax_eq_some {l : List ℚ} (h : l ≠ []) : ∃ m, listMax l = some m := by
  cases hl : listMax l with
  | none => exact absurd ((listMax_eq_none_iff l).mp hl) h
  | some m => exact ⟨m, rfl⟩

theorem sum_map_zero {α : Type} (l : List α) :
    (l.map (fun _ => (0 : ℝ))).sum = 0 := by
  induction l with
  | nil => rfl
  | cons a l ih => simp [ih]

theorem upperName_mem_addField (n : String) (l : List String) :
    upperName n ∈ (addField n l).map upperName := by
  unfold addField
  split
  · assumption
  · simp

theorem mem_map_upperName_addField {x : String} (n : String) {l : List String}
    (h : x ∈ l.map upperName) : x ∈ (addField n l).map upperName := by
  unfold addField
  split
  · exact h
  · rw [List.map_append]
    exact List.mem_append_left _ h

theorem mem_renameField_of_mem_upper {old : String} (new : String)
    {l : List String} (h : upperName old ∈ l.map upperName) :
    new ∈ renameField old new l := by
  obtain ⟨f, hf, hfu⟩ := List.mem_map.mp h
  unfold renameField
  exact List.mem_map.mpr ⟨f, hf, by rw [if_pos hfu]⟩

theorem mem_renameField_of_ne {old x : String} (new : String) {l : List String}
    (h : x ∈ l) (hx : ¬ upperName x = upperName old) :
    x ∈ renameField old new l := by
  unfold renameField
  exact List.mem_map.mpr ⟨x, h, by rw [if_neg hx]⟩

theorem mem_deleteField_of_ne {n x : String} {l : List String} (h : x ∈ l)
    (hx : ¬ upperName x = upperName n) : x ∈ deleteField n l := by
  unfold deleteField
  exact List.mem_filter.mpr ⟨h, by simpa using hx⟩

theorem upperName_not_mem_deleteField (n : String) (l : List String) :
    upperName n ∉ (deleteField n l).map upperName := by
  intro h
  obtain ⟨f, hf, hfu⟩ := List.mem_map.mp h
  have hp := (List.mem_filter.mp hf).2
  simp only [decide_eq_true_eq] at hp
  exact hp hfu

theorem not_mem_deleteField_of_not_mem {x : String} (n : String)
    {l : List String} (h : x ∉ l.map upperName) :
    x ∉ (deleteField n l).map upperName := by
  intro hm
  obtain ⟨f, hf, hfu⟩ := List.mem_map.mp hm
  exact h (List.mem_map.mpr ⟨f, (List.mem_filter.mp hf).1, hfu⟩)

theorem runANc_conflict (raw std : String) (g : List String)
    (h : upperName raw ∈ g.map upperName ∨ upperName std ∈ g.map upperName) :
    runANc raw std g = (g, false) := by
  unfold runANc
  rw [if_pos h]

/- ------------------------------------------------------------------ -/
/- Claim theorems.                                                    -/
/- ------------------------------------------------------------------ -/

/-- C1: on a degenerate column (every SHDI value equal, here a grid whose
zones all have SUM_SumElement = 0) the StandardizeField call of A_SHDI.py
step 9 produces no zeros at all — the zero-variance guard the claim
describes exists only in the hand-rolled standardizers, as the second and
third conjuncts show for L_Tl.py and P_Nc.py on degenerate inputs. -/
theorem ashdi_degenerate_standardization_not_zero :
    builtinStandardizeField [0, 0] = [none, none] ∧
    (standardizeLTl true [some 0, some 0]).map Prod.snd = [some 0, some 0] ∧
    standardizePNc false [some 3, some 3, none] = [some 0, some 0, some 0] := by
  refine ⟨rfl, by decide, by decide⟩

/-- C4: the radicand that R_SDc.py:172 passes to `math.sqrt` is clamped by
`max(0, ...)` and therefore never negative, for every mean resultant length;
R_SDc_mem.py:156 omits the clamp, and at a mean resultant length pushed to
1 + 10⁻¹⁶ by floating-point error its radicand is strictly negative. -/
theorem sdc_radicand_guard_divergence :
    (∀ rMn : ℚ, 0 ≤ sdcRadicand rMn) ∧
    sdcRadicandMem (1 + 1 / 10 ^ 16) < 0 := by
  constructor
  · intro rMn
    exact le_max_left 0 _
  · norm_num [sdcRadicandMem]

/-- C3 counterexample: with zone set Z = {1} and an empty observation set,
A_SHDI's aggregation aborts with an error instead of emitting |Z| = 1 row;
and with Z = {1, 2, 3} and observations touching only zones 1 and 3, it
emits 2 rows, not |Z| = 3. -/
theorem ashdi_aggregate_row_counterexample :
    ashdiAggregate [] = Except.error "Intersect output is empty." ∧
    ashdiAggregate [((1 : ℤ), (5 : ℚ)), ((3 : ℤ), (1 : ℚ))] =
      Except.ok [(1, 5), (3, 1)] := by
  refine ⟨rfl, by simp [ashdiAggregate, ashdiIntersectGate]⟩

/-- C7 counterexample: a two-sample profile has both endpoint values
non-null, yet detect_extrema returns no extrema at all, because any profile
with fewer than 3 non-null samples is discarded before the endpoints are
appended. -/
theorem detect_extrema_endpoints_counterexample :
    [some (1 : ℚ), some 2].head? = some (some 1) ∧
    [some (1 : ℚ), some 2].getLast? = some (some 2) ∧
    detectExtrema [some (1 : ℚ), some 2] = [] := by
  refine ⟨rfl, rfl, rfl⟩

/-- C9 counterexample: an L_Tl.py run that fails inside the Intersect step
(after the StatZoneID field was created in step 1) ends with the transient
StatZoneID column still on the grid — the script's `finally` block does not
remove it, so the teardown is not executed on every exit path. -/
theorem ltl_failed_run_retains_statzoneid :
    runLTlGrid "ABC_LTL" "ABC_LTL_MM" (some 2) ["OBJECTID"] =
      ["OBJECTID", "StatZoneID"] := by
  decide

/-- C8: when a run of the tool succeeds (its two output columns were renamed
onto the grid), running the tool again on the resulting grid fails the
output-field existence check and returns with the grid exactly as it was —
the `(g, false)` result is produced by the check that precedes every
mutation of the grid's attribute table.  The name hypotheses record that the
tool's output names never collide with the transient or intermediate
columns (true of every `<prefix>_...` output name the scripts build). -/
theorem rerun_field_conflict_fails_fast (raw std : String) (g : List String)
    (h1 : ¬ upperName raw = upperName "StatZoneID")
    (h2 : ¬ upperName raw = upperName "Join_Count_MIN_MAX")
    (hsucc : (runANc raw std g).2 = true) :
    runANc raw std (runANc raw std g).1 = ((runANc raw std g).1, false) := by
  by_cases hc : upperName raw ∈ g.map upperName ∨ upperName std ∈ g.map upperName
  · rw [runANc_conflict raw std g hc] at hsucc
    simp at hsucc
  · have hres : runANc raw std g =
      (deleteField "StatZoneID"
        (renameField "Join_Count_MIN_MAX" std
          (renameField "Join_Count" raw
            (addField "Join_Count_MIN_MAX"
              (addField "Join_Count"
                (deleteField "JOIN_COUNT_MIN_MAX"
                  (deleteField "JOIN_COUNT"
                    (addField "StatZoneID" (deleteField "StatZoneID" g)))))))),
        true) := by
      unfold runANc
      rw [if_neg hc]
    have hraw : raw ∈ (runANc raw std g).1 := by
      rw [hres]
      exact mem_deleteField_of_ne
        (mem_renameField_of_ne std
          (mem_renameField_of_mem_upper raw
            (mem_map_upperName_addField "Join_Count_MIN_MAX"
              (upperName_mem_addField "Join_Count" _))) h2) h1
    exact runANc_conflict _ _ _ (Or.inl (List.mem_map_of_mem upperName hraw))

/-- C8 witness: a concrete first run on a one-column grid succeeds, and the
second run fails with the grid unchanged. -/
theorem rerun_field_conflict_fails_fast_witness :
    (runANc "ABC_ANC" "ABC_ANC_MM" ["OBJECTID"]).2 = true ∧
    runANc "ABC_ANC" "ABC_ANC_MM" (runANc "ABC_ANC" "ABC_ANC_MM" ["OBJECTID"]).1 =
      ((runANc "ABC_ANC" "ABC_ANC_MM" ["OBJECTID"]).1, false) :=
  ⟨by decide,
    rerun_field_conflict_fails_fast "ABC_ANC" "ABC_ANC_MM" ["OBJECTID"]
      (by decide) (by decide) (by decide)⟩

/-- C9 amended: only R_M.py runs the StatZoneID teardown in a guaranteed
`finally`: there, on every exit path (any failure point), a successful
cleanup leaves no StatZoneID on the grid, a failing cleanup is recorded as
exactly one warning, and whether the cleanup succeeds never changes whether
the run itself failed.  L_Tl.py (like P_Nc.py and A_SHDI.py) removes
StatZoneID only on the successful path — its complete run ends without the
column, while `ltl_failed_run_retains_statzoneid` shows a failed run keeps
it. -/
theorem teardown_guarantee_amended :
    (∀ raw std g, "STATZONEID" ∉ (runLTlGrid raw std none g).map upperName) ∧
    (∀ raw std failAt cleanupOk g,
      ((rmRun raw std failAt cleanupOk g).warnings = 0 ↔ cleanupOk = true) ∧
      (cleanupOk = true →
        "STATZONEID" ∉ (rmRun raw std failAt cleanupOk g).grid.map upperName) ∧
      (rmRun raw std failAt cleanupOk g).mainFailed =
        (rmRun raw std failAt true g).mainFailed) := by
  have hup : upperName "StatZoneID" = "STATZONEID" := by decide
  constructor
  · intro raw std g
    have hgrid : runLTlGrid raw std none g =
        deleteField "StatZoneID"
          (renameField "Lines_Length_MIN_MAX" std
            (renameField "Lines_Length" raw
              (addField "Lines_Length_MIN_MAX"
                (addField "Lines_Length"
                  (deleteField "LINES_LENGTH_MIN_MAX"
                    (deleteField "LINES_LENGTH"
                      (addField "StatZoneID" (deleteField "StatZoneID" g)))))))) := by
      simp [runLTlGrid, runSteps, ltlGridSteps]
    rw [hgrid, ← hup]
    exact upperName_not_mem_deleteField "StatZoneID" _
  · intro raw std failAt cleanupOk g
    cases cleanupOk with
    | true =>
      refine ⟨by simp [rmRun], fun _ => ?_, rfl⟩
      have hgrid : (rmRun raw std failAt true g).grid =
          deleteField "StatZoneID" (runSteps (rmGridSteps raw std) failAt g) := by
        simp [rmRun]
      rw [hgrid, ← hup]
      exact upperName_not_mem_deleteField "StatZoneID" _
    | false =>
      refine ⟨by simp [rmRun], by simp, ?_⟩
      simp [rmRun]

/-- C10: the P_Nc.py run mutates its landscape input layer: a complete run
ends with the NEAR_FID and NEAR_DIST columns (added to the landscape layer
by the Near analysis of step 2) removed again, but a run that fails at any
step after the Near analysis and before the step-9 cleanup (steps 3-9)
leaves both columns on the landscape layer. -/
theorem pnc_landscape_near_fields_frame_effect :
    (∀ raw std s, "NEAR_FID" ∉ (runPNc raw std none s).land.map upperName ∧
      "NEAR_DIST" ∉ (runPNc raw std none s).land.map upperName) ∧
    (∀ raw std s (k : ℕ), 3 ≤ k → k ≤ 9 →
      "NEAR_FID" ∈ (runPNc raw std (some k) s).land.map upperName ∧
      "NEAR_DIST" ∈ (runPNc raw std (some k) s).land.map upperName) := by
  have hfid : upperName "NEAR_FID" = "NEAR_FID" := by decide
  have hdist : upperName "NEAR_DIST" = "NEAR_DIST" := by decide
  constructor
  · intro raw std s
    have hland : (runPNc raw std none s).land =
        deleteField "NEAR_DIST"
          (deleteField "NEAR_FID" (addField "NEAR_DIST" (addField "NEAR_FID" s.land))) := by
      simp [runPNc, pncSteps]
    constructor
    · rw [hland, ← hfid]
      exact not_mem_deleteField_of_not_mem "NEAR_DIST"
        (upperName_not_mem_deleteField "NEAR_FID" _)
    · rw [hland, ← hdist]
      exact upperName_not_mem_deleteField "NEAR_DIST" _
  · intro raw std s k h3 h9
    have hland : (runPNc raw std (some k) s).land =
        addField "NEAR_DIST" (addField "NEAR_FID" s.land) := by
      interval_cases k <;> simp [runPNc, pncSteps]
    constructor
    · rw [hland, ← hfid]
      exact mem_map_upperName_addField "NEAR_DIST"
        (upperName_mem_addField "NEAR_FID" _)
    · rw [hland, ← hdist]
      exact upperName_mem_addField "NEAR_DIST" _

/-- C10 witness: a concrete run failing inside step 4 (Frequency) leaves
NEAR_FID on the landscape layer. -/
theorem pnc_landscape_near_fields_frame_effect_witness :
    (3 : ℕ) ≤ 4 ∧ (4 : ℕ) ≤ 9 ∧
    "NEAR_FID" ∈
      (runPNc "GEO_PNC" "GEO_PNC_MM" (some 4)
        ⟨["OBJECTID"], ["CAT"]⟩).land.map upperName :=
  ⟨by norm_num, by norm_num,
    (pnc_landscape_near_fields_frame_effect.2 "GEO_PNC" "GEO_PNC_MM"
      ⟨["OBJECTID"], ["CAT"]⟩ 4 (by norm_num) (by norm_num)).1⟩

theorem entropyTerm_sum (ps : List ℝ) :
    (ps.map entropyTerm).sum = specEntropy ps := by
  induction ps with
  | nil => simp [specEntropy]
  | cons p l ih =>
    by_cases hp : p > 0
    · have hs : specEntropy (p :: l) = -(p * Real.log p) + specEntropy l := by
        simp only [specEntropy, List.filter_cons]
        rw [if_pos (by simpa using hp)]
        simp [neg_add, add_comm]
      rw [List.map_cons, List.sum_cons, hs, ih, entropyTerm, if_pos hp]
    · have hs : specEntropy (p :: l) = specEntropy l := by
        simp only [specEntropy, List.filter_cons]
        rw [if_neg (by simpa using hp)]
      rw [List.map_cons, List.sum_cons, hs, ih, entropyTerm, if_neg hp, zero_add]

/-- C5: the Shannon computation of A_SHDI.py step 7 equals the spec's
filtered sum -Σ_{p>0} p ln p for every list of category areas (so ln is
only ever taken at positive proportions); a zone wholly covered by one
category has SHDI exactly 0; and the unit entropy of P_Hu.py is 0 for a
zone with no points (Ne = 0). -/
theorem shannon_entropy_guarded :
    (∀ areas : List (Option ℝ),
      shdiZone areas =
        specEntropy (areas.map (fun a => shdiP (shdiDenom areas) (a.getD 0)))) ∧
    (∀ a : ℝ, 0 < a → shdiZone [some a] = 0) ∧
    (∀ counts : List ℝ, huZone 0 counts = 0) := by
  refine ⟨?_, ?_, ?_⟩
  · intro areas
    rw [shdiZone, ← entropyTerm_sum, List.map_map]
    rfl
  · intro a ha
    simp [shdiZone, shdiDenom, shdiP, entropyTerm, ha,
      div_self (ne_of_gt ha), Real.log_one]
  · intro counts
    have h0 : ∀ c : ℝ, entropyTerm (huQ 0 c) = 0 := by
      intro c
      simp [huQ, entropyTerm]
    simp only [huZone, h0]
    exact sum_map_zero counts

/-- C5 witness: a zone with a single category of area 1 has SHDI exactly 0. -/
theorem shannon_entropy_guarded_witness :
    (0 : ℝ) < 1 ∧ shdiZone [some 1] = 0 :=
  ⟨one_pos, shannon_entropy_guarded.2.1 1 one_pos⟩

theorem muDir_eq_spec (z : List ℚ) : muDir z = specMuDir z := by
  induction z with
  | nil => simp [muDir, specMuDir]
  | cons a l ih =>
    cases l with
    | nil => simp [muDir, specMuDir]
    | cons b m =>
      have hspec : specMuDir (a :: b :: m) =
          Real.sqrt |(b : ℝ) - (a : ℝ)| + specMuDir (b :: m) := by
        simp [specMuDir]
      rw [show muDir (a :: b :: m) =
        Real.sqrt |(b : ℝ) - (a : ℝ)| + muDir (b :: m) from rfl, hspec, ih]

theorem insertByKey_perm (key : RelPoint → ℚ) (p : RelPoint)
    (l : List RelPoint) : (insertByKey key p l).Perm (p :: l) := by
  induction l with
  | nil => exact List.Perm.refl _
  | cons q m ih =>
    unfold insertByKey
    split
    · exact List.Perm.refl _
    · exact (List.Perm.cons q ih).trans (List.Perm.swap p q m)

theorem sortByKey_perm (key : RelPoint → ℚ) (l : List RelPoint) :
    (sortByKey key l).Perm l := by
  induction l with
  | nil => exact List.Perm.refl _
  | cons p m ih =>
    exact (insertByKey_perm key p (sortByKey key m)).trans (List.Perm.cons p ih)

theorem insertByKey_pairwise (key : RelPoint → ℚ) {p : RelPoint}
    {l : List RelPoint} (h : l.Pairwise (fun a b => key a ≤ key b)) :
    (insertByKey key p l).Pairwise (fun a b => key a ≤ key b) := by
  induction l with
  | nil => simp [insertByKey]
  | cons q m ih =>
    rw [List.pairwise_cons] at h
    obtain ⟨hq, hm⟩ := h
    unfold insertByKey
    split
    next hlt =>
      rw [List.pairwise_cons]
      refine ⟨?_, List.pairwise_cons.mpr ⟨hq, hm⟩⟩
      intro x hx
      rcases List.mem_cons.mp hx with rfl | hx2
      · exact le_of_lt hlt
      · exact le_trans (le_of_lt hlt) (hq x hx2)
    next hge =>
      rw [List.pairwise_cons]
      refine ⟨?_, ih hm⟩
      intro x hx
      have hx2 : x ∈ p :: m := (insertByKey_perm key p m).mem_iff.mp hx
      rcases List.mem_cons.mp hx2 with rfl | hx3
      · exact le_of_not_lt hge
      · exact hq x hx3

theorem sortByKey_pairwise (key : RelPoint → ℚ) (l : List RelPoint) :
    (sortByKey key l).Pairwise (fun a b => key a ≤ key b) := by
  induction l with
  | nil => simp [sortByKey]
  | cons p m ih => exact insertByKey_pairwise key ih

theorem muDir_short {z : List ℚ} (h : z.length < 2) : muDir z = 0 := by
  match z with
  | [] => rfl
  | [a] => rfl
  | a :: b :: m =>
    simp only [List.length_cons] at h
    exact absurd h (by omega)

/-- C6: the directional relief sum of R_M.py step 10 is exactly the spec's
sum of sqrt |Δelevation| over consecutive points of the chain; the zone's
points are sorted by position along the transect axis (the sorted chain is a
permutation of the assigned points, ordered by the key); the zone value is
the average of the two directions; and a direction with fewer than 2
assigned points contributes 0. -/
theorem relief_summation_correct :
    (∀ z : List ℚ, muDir z = specMuDir z) ∧
    (∀ (key : RelPoint → ℚ) (l : List RelPoint),
      (sortByKey key l).Perm l ∧
      (sortByKey key l).Pairwise (fun a b => key a ≤ key b)) ∧
    (∀ pts : List RelPoint,
      (zoneMu pts).2.2 = ((zoneMu pts).1 + (zoneMu pts).2.1) / 2) ∧
    (∀ pts : List RelPoint,
      ((pts.filter (fun p => p.nsDir = true)).length < 2 →
        (zoneMu pts).1 = 0) ∧
      ((pts.filter (fun p => p.nsDir = false)).length < 2 →
        (zoneMu pts).2.1 = 0)) := by
  refine ⟨muDir_eq_spec, fun key l => ⟨sortByKey_perm key l, sortByKey_pairwise key l⟩, ?_, ?_⟩
  · intro pts
    by_cases h : pts = []
    · simp [zoneMu, h]
    · simp [zoneMu, h]
  · intro pts
    constructor
    · intro hlen
      by_cases h : pts = []
      · simp [zoneMu, h]
      · have hlen2 : ((sortByKey (fun p => p.y)
            (pts.filter (fun p => p.nsDir = true))).map (fun p => p.z)).length < 2 := by
          rw [List.length_map,
            (sortByKey_perm (fun p => p.y) _).length_eq]
          exact hlen
        simp only [zoneMu, if_neg h]
        exact muDir_short hlen2
    · intro hlen
      by_cases h : pts = []
      · simp [zoneMu, h]
      · have hlen2 : ((sortByKey (fun p => p.x)
            (pts.filter (fun p => p.nsDir = false))).map (fun p => p.z)).length < 2 := by
          rw [List.length_map,
            (sortByKey_perm (fun p => p.x) _).length_eq]
          exact hlen
        simp only [zoneMu, if_neg h]
        exact muDir_short hlen2

/-- C6 witness: a zone whose only assigned point lies on a W-E profile has
0 N-S points, hence MU_NS = 0. -/
theorem relief_summation_correct_witness :
    (([⟨3, false, 0, 0⟩] : List RelPoint).filter
      (fun p => p.nsDir = true)).length < 2 ∧
    (zoneMu [⟨3, false, 0, 0⟩]).1 = 0 :=
  ⟨by decide,
    (relief_summation_correct.2.2.2 [⟨3, false, 0, 0⟩]).1 (by decide)⟩


theorem listMin_eq_none_iff (l : List ℚ) : listMin l = none ↔ l = [] := by
  cases l with
  | nil => simp [listMin]
  | cons a l =>
    simp only [listMin]
    cases listMin l <;> simp

theorem listMin_eq_some {l : List ℚ} (h : l ≠ []) : ∃ m, listMin l = some m := by
  cases hl : listMin l with
  | none => exact absurd ((listMin_eq_none_iff l).mp hl) h
  | some m => exact ⟨m, rfl⟩

theorem maxLines_eq (vals : List (Option ℚ)) :
    maxLines vals = (listMax (observedValues vals)).getD 0 := by
  unfold maxLines
  cases listMax (observedValues vals) <;> rfl

theorem minLines_false_eq (vals : List (Option ℚ)) :
    minLines false vals = (listMin (observedValues vals)).getD 0 := by
  unfold minLines
  cases listMin (observedValues vals) <;> rfl

theorem minLines_true_eq (vals : List (Option ℚ)) : minLines true vals = 0 := by
  unfold minLines
  cases listMin (observedValues vals) <;> rfl

theorem observedValues_fill (vals : List (Option ℚ)) :
    observedValues (vals.map (fun v => some (v.getD 0))) =
      vals.map (fun v => v.getD 0) := by
  unfold observedValues
  rw [List.filterMap_map]
  exact List.filterMap_eq_map _ ▸ rfl

theorem listMax_fill (vals : List (Option ℚ))
    (hpos : ∀ v ∈ observedValues vals, 0 ≤ v)
    (hne : observedValues vals ≠ []) :
    listMax (vals.map (fun v => v.getD 0)) =
      some ((listMax (observedValues vals)).getD 0) := by
  obtain ⟨mo, hmo⟩ := listMax_eq_some hne
  rw [hmo]
  simp only [Option.getD_some]
  have hmo_mem : mo ∈ observedValues vals := listMax_mem hmo
  have hmo_nonneg : 0 ≤ mo := hpos mo hmo_mem
  have hvals_ne : vals ≠ [] := by
    intro h
    rw [h] at hne
    exact hne rfl
  obtain ⟨M, hM⟩ :=
    listMax_eq_some (l := vals.map (fun v => v.getD 0)) (by simpa using hvals_ne)
  rw [hM]
  congr 1
  apply le_antisymm
  · obtain ⟨v, hv, hveq⟩ := List.mem_map.mp (listMax_mem hM)
    cases v with
    | none =>
      rw [← hveq]
      simpa using hmo_nonneg
    | some a =>
      have ha : a ∈ observedValues vals :=
        List.mem_filterMap.mpr ⟨some a, hv, rfl⟩
      rw [← hveq]
      simpa using le_listMax ha hmo
  · have hsome : some mo ∈ vals := by
      obtain ⟨a, ha, haeq⟩ := List.mem_filterMap.mp hmo_mem
      have haa : a = some mo := haeq
      exact haa ▸ ha
    exact le_listMax (List.mem_map.mpr ⟨some mo, hsome, rfl⟩) hM

/-- C2: for a non-degenerate scaling range both hand-rolled standardizers
(L_Tl.py step 5 and P_Nc.py steps 5.1-5.4) compute exactly the spec's
null-policy contract: zero-fill treats NULLs as 0, pins the minimum at 0,
takes the maximum over the observed raw values and divides by it;
preserve-null keeps NULLs, takes min and max over the non-null values and
rescales by (raw - min)/(max - min).  The non-negativity hypothesis records
that the standardized quantities (lengths, frequencies) are never
negative. -/
theorem standardize_follows_null_policy (useZero : Bool)
    (vals : List (Option ℚ))
    (hne : ¬ maxLines vals = minLines useZero vals)
    (hpos : ∀ v ∈ observedValues vals, 0 ≤ v) :
    (standardizeLTl useZero vals).map Prod.snd = specStandardize useZero vals ∧
    standardizePNc useZero vals = specStandardize useZero vals := by
  have hobs : observedValues vals ≠ [] := by
    intro h
    apply hne
    rw [maxLines_eq, h]
    cases useZero
    · rw [minLines_false_eq, h]
      rfl
    · rw [minLines_true_eq]
      rfl
  constructor
  · -- L_Tl.py
    rw [standardizeLTl, List.map_map, specStandardize]
    apply List.map_congr_left
    intro v hv
    cases v with
    | none =>
      cases useZero
      · rfl
      · simp [standardizeRowLTl, minLines_true_eq, maxLines_eq, zero_div]
    | some a =>
      cases useZero
      · have hmx : ¬ maxLines vals = minLines false vals := hne
        simp only [Function.comp, standardizeRowLTl, if_neg hmx]
        rw [minLines_false_eq, maxLines_eq]
        simp
      · have hmx : ¬ maxLines vals = minLines true vals := hne
        simp only [Function.comp, standardizeRowLTl, if_neg hmx]
        rw [minLines_true_eq, maxLines_eq]
        simp [sub_zero]
  · -- P_Nc.py
    cases useZero
    · -- preserve-null mode
      obtain ⟨mn0, hmn0⟩ := listMin_eq_some hobs
      obtain ⟨mx0, hmx0⟩ := listMax_eq_some hobs
      have hfill : pncFill false vals = vals := rfl
      have hrange : pncRange false vals = (mn0, mx0) := by
        simp [pncRange, hfill, hmn0, hmx0]
      have hmxmn : ¬ mx0 = mn0 := by
        intro h
        apply hne
        rw [maxLines_eq, minLines_false_eq, hmn0, hmx0, h]
      rw [standardizePNc, hrange, specStandardize, hfill]
      apply List.map_congr_left
      intro v hv
      cases v with
      | none => simp [pncRow, if_neg hmxmn]
      | some a =>
        simp [pncRow, if_neg hmxmn, maxLines_eq, minLines_false_eq, hmn0, hmx0]
    · -- zero-fill mode
      have hmx : ¬ (listMax (observedValues vals)).getD 0 = 0 := by
        intro h
        apply hne
        rw [maxLines_eq, minLines_true_eq, h]
      have hfillmax :
          listMax (vals.map (fun v => v.getD 0)) =
            some ((listMax (observedValues vals)).getD 0) :=
        listMax_fill vals hpos hobs
      have hfillne : vals.map (fun v => v.getD 0) ≠ [] := by
        intro h
        apply hobs
        have hv : vals = [] := by simpa using h
        rw [hv]
        rfl
      obtain ⟨mnF, hmnF⟩ :=
        listMin_eq_some (l := vals.map (fun v => v.getD 0)) hfillne
      have hfill : pncFill true vals = vals.map (fun v => some (v.getD 0)) := rfl
      have hrange : pncRange true vals =
          (0, (listMax (observedValues vals)).getD 0) := by
        simp [pncRange, hfill, observedValues_fill, hmnF, hfillmax]
      rw [standardizePNc, hrange, specStandardize, hfill, List.map_map]
      apply List.map_congr_left
      intro v hv
      cases v with
      | none => simp [pncRow, Function.comp, if_neg hmx, sub_zero]
      | some a => simp [pncRow, Function.comp, if_neg hmx, sub_zero]

/-- C2 witness: a concrete non-degenerate preserve-null run matches the
spec formula. -/
theorem standardize_follows_null_policy_witness :
    ¬ maxLines [some 1, some 3, none] = minLines false [some 1, some 3, none] ∧
    (standardizeLTl false [some 1, some 3, none]).map Prod.snd =
      specStandardize false [some 1, some 3, none] :=
  ⟨by decide,
    (standardize_follows_null_policy false [some 1, some 3, none]
      (by decide) (by decide)).1⟩

theorem length_filter_split (p : ℤ → Bool) (l : List ℤ) :
    (l.filter p).length + (l.filter (fun z => ! p z)).length = l.length := by
  induction l with
  | nil => rfl
  | cons a l ih =>
    cases hpa : p a <;> simp [List.filter_cons, hpa, ← ih] <;> omega

theorem dedup_length_eq_filter (zones obs : List ℤ) (hnd : zones.Nodup)
    (hsub : ∀ o ∈ obs, o ∈ zones) :
    obs.dedup.length = (zones.filter (fun z => decide (z ∈ obs))).length := by
  apply List.Perm.length_eq
  apply List.perm_iff_count.mpr
  intro x
  by_cases hx : x ∈ obs
  · rw [List.count_eq_one_of_mem obs.nodup_dedup (List.mem_dedup.mpr hx),
      List.count_eq_one_of_mem (hnd.filter _)
        (List.mem_filter.mpr ⟨hsub x hx, by simpa using hx⟩)]
  · rw [List.count_eq_zero_of_not_mem (fun h => hx (List.mem_dedup.mp h)),
      List.count_eq_zero_of_not_mem
        (fun h => hx (by simpa using (List.mem_filter.mp h).2))]

/-- C3 amended: the P_Nc.py aggregation (Frequency plus the step-4.1
completion) emits exactly one row per grid zone — |Z| rows — for every
observation multiset drawn from the zone set, including the empty one, and
every zone without observations appears with FREQUENCY 0 (zero-fill) or
NULL (preserve-null); A_SHDI.py, in contrast, aborts the run when the
intersection is empty instead of emitting |Z| rows. -/
theorem aggregate_rows_amended (useZero : Bool) (zones obs : List ℤ)
    (hnd : zones.Nodup) (hsub : ∀ o ∈ obs, o ∈ zones) :
    (completeNcTable useZero zones obs).length = zones.length ∧
    (∀ z ∈ zones, z ∉ obs →
      (z, if useZero then some (0 : ℚ) else none) ∈
        completeNcTable useZero zones obs) ∧
    ashdiAggregate [] = Except.error "Intersect output is empty." := by
  refine ⟨?_, ?_, rfl⟩
  · have hlen : (completeNcTable useZero zones obs).length =
        obs.dedup.length + (zones.filter (fun z => decide (¬ z ∈ obs))).length := by
      simp [completeNcTable, frequencyTable]
    rw [hlen, dedup_length_eq_filter zones obs hnd hsub]
    have hsplit := length_filter_split (fun z => decide (z ∈ obs)) zones
    have hnot : (zones.filter (fun z => ! decide (z ∈ obs))).length =
        (zones.filter (fun z => decide (¬ z ∈ obs))).length := by
      simp [decide_not]
    rw [← hsplit, hnot]
  · intro z hz hzo
    apply List.mem_append_right
    exact List.mem_map.mpr ⟨z, List.mem_filter.mpr ⟨hz, by simpa using hzo⟩, rfl⟩

/-- C3 witness: a two-zone grid with observations in only one zone still
yields exactly two aggregate rows. -/
theorem aggregate_rows_amended_witness :
    ([1, 2] : List ℤ).Nodup ∧ (completeNcTable false [1, 2] [1]).length = 2 :=
  ⟨by decide,
    (aggregate_rows_amended false [1, 2] [1] (by decide) (by decide)).1⟩

theorem interiorCheck_some {values : List (Option ℚ)} {j i : ℕ} {v : ℚ}
    (h : interiorCheck values j = some (i, v)) :
    i = j ∧ 1 ≤ j ∧ j + 1 < values.length ∧
    ∃ a b, values.get? (j - 1) = some (some a) ∧
      values.get? j = some (some v) ∧
      values.get? (j + 1) = some (some b) ∧ strictExtremum a v b = true := by
  unfold interiorCheck at h
  by_cases hc : 1 ≤ j ∧ j + 1 < values.length
  · rw [if_pos hc] at h
    cases hm1 : values.get? (j - 1) with
    | none =>
      rw [hm1] at h
      exact absurd h (by simp)
    | some w1 =>
      cases w1 with
      | none =>
        rw [hm1] at h
        exact absurd h (by simp)
      | some a =>
        cases hm2 : values.get? j with
        | none =>
          rw [hm1, hm2] at h
          exact absurd h (by simp)
        | some w2 =>
          cases w2 with
          | none =>
            rw [hm1, hm2] at h
            exact absurd h (by simp)
          | some w =>
            cases hm3 : values.get? (j + 1) with
            | none =>
              rw [hm1, hm2, hm3] at h
              exact absurd h (by simp)
            | some w3 =>
              cases w3 with
              | none =>
                rw [hm1, hm2, hm3] at h
                exact absurd h (by simp)
              | some b =>
                rw [hm1, hm2, hm3] at h
                have h2 : (if strictExtremum a w b = true then
                    some (j, w) else none) = some (i, v) := h
                by_cases hs : strictExtremum a w b = true
                · rw [if_pos hs] at h2
                  injection h2 with h3
                  injection h3 with hji hwv
                  exact ⟨hji.symm, hc.1, hc.2,
                    a, b, rfl, hwv ▸ rfl, rfl, hwv ▸ hs⟩
                · rw [if_neg hs] at h2
                  exact absurd h2 (by simp)
  · rw [if_neg hc] at h
    exact absurd h (by simp)

theorem interiorCheck_of_conditions {values : List (Option ℚ)} {i : ℕ} {v a b : ℚ}
    (h1 : 1 ≤ i) (h2 : i + 1 < values.length)
    (ha : values.get? (i - 1) = some (some a))
    (hv : values.get? i = some (some v))
    (hb : values.get? (i + 1) = some (some b))
    (hs : strictExtremum a v b = true) :
    interiorCheck values i = some (i, v) := by
  unfold interiorCheck
  rw [if_pos ⟨h1, h2⟩, ha, hv, hb]
  show (if strictExtremum a v b = true then some (i, v) else none) = some (i, v)
  rw [if_pos hs]

theorem mem_interiorExtrema_iff (values : List (Option ℚ)) (i : ℕ) (v : ℚ) :
    (i, v) ∈ interiorExtrema values ↔
      (1 ≤ i ∧ i + 1 < values.length ∧
        ∃ a b, values.get? (i - 1) = some (some a) ∧
          values.get? i = some (some v) ∧
          values.get? (i + 1) = some (some b) ∧ strictExtremum a v b = true) := by
  unfold interiorExtrema
  rw [List.mem_filterMap]
  constructor
  · rintro ⟨j, hj, hfj⟩
    obtain ⟨rfl, hj1, hj2, a, b, ha, hv, hb, hs⟩ := interiorCheck_some hfj
    exact ⟨hj1, hj2, a, b, ha, hv, hb, hs⟩
  · rintro ⟨h1, h2, a, b, ha, hv, hb, hs⟩
    exact ⟨i, List.mem_range.mpr (by omega),
      interiorCheck_of_conditions h1 h2 ha hv hb hs⟩

/-- C7 amended: detect_extrema reports an interior sampled point as a local
extremum exactly when its value and both neighbour values are non-null and
it is strictly greater or strictly less than both neighbours, and it
includes a profile endpoint whenever its sampled value is non-null —
provided the profile carries at least 3 non-null samples; a profile with
fewer than 3 non-null samples yields no extrema at all (the change the
counterexample forces on the claim). -/
theorem detect_extrema_amended (values : List (Option ℚ)) :
    (validCount values < 3 → detectExtrema values = []) ∧
    (3 ≤ validCount values →
      (∀ v, values.head? = some (some v) → (0, v) ∈ detectExtrema values) ∧
      (∀ v, values.getLast? = some (some v) →
        (values.length - 1, v) ∈ detectExtrema values) ∧
      (∀ i v, 1 ≤ i → i + 1 < values.length →
        ((i, v) ∈ detectExtrema values ↔
          ∃ a b, values.get? (i - 1) = some (some a) ∧
            values.get? i = some (some v) ∧
            values.get? (i + 1) = some (some b) ∧
            strictExtremum a v b = true))) := by
  constructor
  · intro h
    unfold detectExtrema
    rw [if_pos h]
  · intro h3
    have hlt : ¬ validCount values < 3 := not_lt.mpr h3
    refine ⟨?_, ?_, ?_⟩
    · intro v hv
      unfold detectExtrema
      rw [if_neg hlt, hv]
      cases hl : values.getLast? with
      | none => exact List.mem_cons_self _ _
      | some w =>
        cases w with
        | none => exact List.mem_cons_self _ _
        | some b => exact List.mem_append_left _ (List.mem_cons_self _ _)
    · intro v hv
      unfold detectExtrema
      rw [if_neg hlt, hv]
      cases hh : values.head? with
      | none => exact List.mem_append_right _ (List.mem_singleton.mpr rfl)
      | some w =>
        cases w with
        | none => exact List.mem_append_right _ (List.mem_singleton.mpr rfl)
        | some a => exact List.mem_append_right _ (List.mem_singleton.mpr rfl)
    · intro i v hi1 hi2
      have hkey : (i, v) ∈ detectExtrema values ↔
          (i, v) ∈ interiorExtrema values := by
        unfold detectExtrema
        rw [if_neg hlt]
        constructor
        · intro hm
          cases hh : values.head? with
          | none =>
            rw [hh] at hm
            cases hl : values.getLast? with
            | none =>
              rw [hl] at hm
              exact hm
            | some w =>
              cases w with
              | none =>
                rw [hl] at hm
                exact hm
              | some b =>
                rw [hl] at hm
                rcases List.mem_append.mp hm with hm2 | hm2
                · exact hm2
                · exfalso
                  have := List.mem_singleton.mp hm2
                  have hieq : i = values.length - 1 := congrArg Prod.fst this
                  omega
          | some w =>
            cases w with
            | none =>
              rw [hh] at hm
              cases hl : values.getLast? with
              | none =>
                rw [hl] at hm
                exact hm
              | some w2 =>
                cases w2 with
                | none =>
                  rw [hl] at hm
                  exact hm
                | some b =>
                  rw [hl] at hm
                  rcases List.mem_append.mp hm with hm2 | hm2
                  · exact hm2
                  · exfalso
                    have := List.mem_singleton.mp hm2
                    have hieq : i = values.length - 1 := congrArg Prod.fst this
                    omega
            | some a =>
              rw [hh] at hm
              cases hl : values.getLast? with
              | none =>
                rw [hl] at hm
                rcases List.mem_cons.mp hm with hm2 | hm2
                · exfalso
                  have hieq : i = 0 := congrArg Prod.fst hm2
                  omega
                · exact hm2
              | some w2 =>
                cases w2 with
                | none =>
                  rw [hl] at hm
                  rcases List.mem_cons.mp hm with hm2 | hm2
                  · exfalso
                    have hieq : i = 0 := congrArg Prod.fst hm2
                    omega
                  · exact hm2
                | some b =>
                  rw [hl] at hm
                  rcases List.mem_append.mp hm with hm2 | hm2
                  · rcases List.mem_cons.mp hm2 with hm3 | hm3
                    · exfalso
                      have hieq : i = 0 := congrArg Prod.fst hm3
                      omega
                    · exact hm3
                  · exfalso
                    have := List.mem_singleton.mp hm2
                    have hieq : i = values.length - 1 := congrArg Prod.fst this
                    omega
        · intro hm
          cases hh : values.head? with
          | none =>
            cases hl : values.getLast? with
            | none => exact hm
            | some w =>
              cases w with
              | none => exact hm
              | some b => exact List.mem_append_left _ hm
          | some w =>
            cases w with
            | none =>
              cases hl : values.getLast? with
              | none => exact hm
              | some w2 =>
                cases w2 with
                | none => exact hm
                | some b => exact List.mem_append_left _ hm
            | some a =>
              cases hl : values.getLast? with
              | none => exact List.mem_cons_of_mem _ hm
              | some w2 =>
                cases w2 with
                | none => exact List.mem_cons_of_mem _ hm
                | some b =>
                  exact List.mem_append_left _ (List.mem_cons_of_mem _ hm)
      rw [hkey, mem_interiorExtrema_iff]
      constructor
      · rintro ⟨_, _, a, b, ha, hv, hb, hs⟩
        exact ⟨a, b, ha, hv, hb, hs⟩
      · rintro ⟨a, b, ha, hv, hb, hs⟩
        exact ⟨hi1, hi2, a, b, ha, hv, hb, hs⟩

/-- C7 amended witness: on the profile (1, 3, 2) with 3 non-null samples,
the first endpoint is reported as an extremum. -/
theorem detect_extrema_amended_witness :
    3 ≤ validCount [some 1, some 3, some 2] ∧
    ((0 : ℕ), (1 : ℚ)) ∈ detectExtrema [some 1, some 3, some 2] :=
  ⟨by decide,
    ((detect_extrema_amended [some 1, some 3, some 2]).2 (by decide)).1 1 rfl⟩

/-- C9 amended witness: a concrete R_M run failing at step 3, with the
cleanup succeeding, ends with no warning and no StatZoneID on the grid. -/
theorem teardown_guarantee_amended_witness :
    ((rmRun "DEM_R_M" "DEM_RM_MM" (some 3) true ["OBJECTID"]).warnings = 0 ↔
      true = true) ∧
    "STATZONEID" ∉
      (rmRun "DEM_R_M" "DEM_RM_MM" (some 3) true ["OBJECTID"]).grid.map upperName :=
  ⟨(teardown_guarantee_amended.2 "DEM_R_M" "DEM_RM_MM" (some 3) true
      ["OBJECTID"]).1,
    (teardown_guarantee_amended.2 "DEM_R_M" "DEM_RM_MM" (some 3) true
      ["OBJECTID"]).2.1 rfl⟩
